import Mathlib

/-!
Verification of the JMX-to-scenario converter core against its
natural-language specification.

The Python sources under `src/jmx_to_scenario/` are shallowly embedded here:
XML elements become an inductive tree type, the hierarchy builder, the
recursive sampler extractor, the property accessors, the expression
translator and the scenario assembler become executable Lean functions that
mirror the Python control flow statement by statement.  The standard-library
boundary (`json.loads`) is kept abstract as a function parameter, since no
verified property depends on the shape of a decoded JSON document.

Conventions: Python `dict`s become ordered association lists with
insert-or-overwrite-in-place semantics (matching CPython's ordered dicts);
Python string truthiness tests become `= ""` tests; Python `int(...)` over a
string is modelled by `pythonInt` for ASCII decimal literals.
-/

namespace Jmx

/-- The whitespace characters stripped by Python `str.strip()` and matched by
regex `\s` (space, tab, LF, CR, VT, FF), restricted to ASCII. -/
def isPyWs (c : Char) : Bool :=
  c = ' ' || c = '\t' || c = '\n' || c = '\r' || c = Char.ofNat 11 || c = Char.ofNat 12

/-- Python `str.strip()` (ASCII whitespace model). -/
def pyStrip (s : String) : String :=
  ⟨((s.data.dropWhile isPyWs).reverse.dropWhile isPyWs).reverse⟩

/-- Python `str.lstrip(chars)`: drop leading characters that occur in `chars`. -/
def pyLStrip (s : String) (chars : String) : String :=
  ⟨s.data.dropWhile (fun c => chars.data.contains c)⟩

/-- Python `str.lower()` (ASCII model). -/
def pyLower (s : String) : String :=
  ⟨s.data.map Char.toLower⟩

/-- Numeric value of a decimal digit character. -/
def digitVal (c : Char) : Nat := c.toNat - 48

/-- Value of a list of decimal digit characters. -/
def digitsVal (cs : List Char) : Nat :=
  cs.foldl (fun a c => a * 10 + digitVal c) 0

/-- Models Python `int(s)` on strings: surrounding whitespace is stripped,
one optional sign is allowed, and at least one ASCII decimal digit is
required; anything else raises `ValueError`, modelled as `none`. -/
def pythonInt (s : String) : Option Int :=
  match (pyStrip s).data with
  | [] => none
  | c :: rest =>
    if c = '-' then
      if !rest.isEmpty && rest.all Char.isDigit then some (-(digitsVal rest : Int)) else none
    else if c = '+' then
      if !rest.isEmpty && rest.all Char.isDigit then some ((digitsVal rest : Int)) else none
    else
      if (c :: rest).all Char.isDigit then some ((digitsVal (c :: rest) : Int)) else none

/-- `convert_match_number` from `core/converters/groovy_converter.py`:
converts a JMX `match_numbers` value into a selection policy together with
the warnings emitted on the parser's warning channel. -/
def convert_match_number (match_numbers : String) : String × List String :=
  if match_numbers = "" || pyStrip match_numbers = "" then ("first", [])
  else
    match pythonInt match_numbers with
    | none =>
      ("first", ["Invalid match_numbers value: " ++ match_numbers ++ ", using \x27first\x27"])
    | some num =>
      if num = 1 then ("first", [])
      else if num = -1 then ("all", [])
      else if num = 0 then ("first", ["match_numbers=0 (random) converted to \x27first\x27"])
      else
        ("first",
          ["match_numbers=" ++ toString num ++ " (N-th) converted to \x27first\x27 (not supported)"])

lemma pyStrip_empty_pythonInt {s : String} (h : pyStrip s = "") : pythonInt s = none := by
  unfold pythonInt
  rw [h]

/-- C3: for every raw match-count string, the selection-policy conversion
returns: blank → `first` with no warning; an integer `1` → `first` with no
warning; `-1` → `all` with no warning; `0` → `first` with a warning; any
other integer → `first` with a warning; a non-numeric string → `first` with
a warning; and the resulting policy is always exactly `first` or `all`. -/
theorem C3_match_count (s : String) :
    ((convert_match_number s).1 = "first" ∨ (convert_match_number s).1 = "all")
    ∧ (pyStrip s = "" → convert_match_number s = ("first", []))
    ∧ (pythonInt s = some 1 → convert_match_number s = ("first", []))
    ∧ (pythonInt s = some (-1) → convert_match_number s = ("all", []))
    ∧ (pythonInt s = some 0 →
        (convert_match_number s).1 = "first" ∧ (convert_match_number s).2 ≠ [])
    ∧ (∀ n : Int, pythonInt s = some n → n ≠ 1 → n ≠ -1 → n ≠ 0 →
        (convert_match_number s).1 = "first" ∧ (convert_match_number s).2 ≠ [])
    ∧ (pythonInt s = none → pyStrip s ≠ "" →
        (convert_match_number s).1 = "first" ∧ (convert_match_number s).2 ≠ []) := by
  by_cases hb : (s = "" || pyStrip s = "") = true
  · have hstrip : pyStrip s = "" := by
      rcases Bool.or_eq_true_iff.mp hb with h | h
      · have : s = "" := by simpa using h
        rw [this]; rfl
      · simpa using h
    have hnone : pythonInt s = none := pyStrip_empty_pythonInt hstrip
    have heq : convert_match_number s = ("first", []) := by
      unfold convert_match_number
      rw [if_pos hb]
    refine ⟨Or.inl (by rw [heq]), fun _ => heq, fun _ => heq,
      fun h => absurd h (by rw [hnone]; simp),
      fun h => absurd h (by rw [hnone]; simp),
      fun n h _ _ _ => absurd h (by rw [hnone]; simp),
      fun _ hne => absurd hstrip hne⟩
  · have hbf : (s = "" || pyStrip s = "") = false := by
      simpa using hb
    refine ⟨?_, ?_, ?_, ?_, ?_, ?_, ?_⟩
    · unfold convert_match_number
      rw [hbf]
      simp only [Bool.false_eq_true, if_false]
      rcases hi : pythonInt s with _ | n
      · simp
      · by_cases h1 : n = 1 <;> by_cases h2 : n = -1 <;> by_cases h3 : n = 0 <;>
          simp [h1, h2, h3]
    · intro h
      have : (s = "" || pyStrip s = "") = true := by simp [h]
      rw [this] at hbf; exact absurd hbf (by simp)
    · intro h
      unfold convert_match_number
      rw [hbf, h]
      simp
    · intro h
      unfold convert_match_number
      rw [hbf, h]
      norm_num
    · intro h
      unfold convert_match_number
      rw [hbf, h]
      norm_num
    · intro n h h1 h2 h3
      unfold convert_match_number
      rw [hbf, h]
      simp [h1, h2, h3]
    · intro h _
      unfold convert_match_number
      rw [hbf, h]
      simp

/-- Concrete instantiations of `C3_match_count`, discharging each hypothesis:
`""`, `"1"`, `"-1"`, `"0"`, `"3"` and `"abc"` behave as the claim states. -/
theorem C3_witness :
    convert_match_number "" = ("first", [])
    ∧ convert_match_number "1" = ("first", [])
    ∧ convert_match_number "-1" = ("all", [])
    ∧ ((convert_match_number "0").1 = "first" ∧ (convert_match_number "0").2 ≠ [])
    ∧ ((convert_match_number "3").1 = "first" ∧ (convert_match_number "3").2 ≠ [])
    ∧ ((convert_match_number "abc").1 = "first" ∧ (convert_match_number "abc").2 ≠ []) :=
  ⟨(C3_match_count "").2.1 (by decide),
   (C3_match_count "1").2.2.1 (by decide),
   (C3_match_count "-1").2.2.2.1 (by decide),
   (C3_match_count "0").2.2.2.2.1 (by decide),
   (C3_match_count "3").2.2.2.2.2.1 3 (by decide) (by decide) (by decide) (by decide),
   (C3_match_count "abc").2.2.2.2.2.2 (by decide) (by decide)⟩

/-! ### Expression translator (`convert_groovy_to_condition`)

The five regular expressions of the Python source are simple enough that
each component admits a deterministic maximal-munch implementation; the only
backtracking point — the ordered operator alternation of pattern 5 and the
two-character operators of `_extract_iteration_limit` — is implemented by
trying the alternatives in the same order as the regex engine.  `re.search`
is the leftmost-position search `searchWith`. -/

/-- Python regex `\w` (ASCII model): letters, digits, underscore. -/
def isWordChar (c : Char) : Bool :=
  c.isAlphanum || c = '_'

/-- A single or double quotation mark, the regex class `['\"]`. -/
def isQuote (c : Char) : Bool :=
  c = Char.ofNat 39 || c = Char.ofNat 34

/-- Regex `[<>=!]`, the comparison-operator characters of pattern 4. -/
def isOpChar (c : Char) : Bool :=
  c = '<' || c = '>' || c = '=' || c = '!'

/-- Match a literal string prefix, returning the remainder. -/
def stripLit : List Char → List Char → Option (List Char)
  | [], s => some s
  | _ :: _, [] => none
  | p :: ps, c :: cs => if c = p then stripLit ps cs else none

/-- Match a literal (given as a `String`) at the head of the input. -/
def stripLitS (pat : String) (s : List Char) : Option (List Char) :=
  stripLit pat.data s

/-- Regex `\s*`: drop leading whitespace. -/
def skipSpaces (s : List Char) : List Char :=
  s.dropWhile isPyWs

/-- Match one character of the class `['\"]`. -/
def matchQuote : List Char → Option (List Char)
  | c :: rest => if isQuote c then some rest else none
  | [] => none

/-- Regex `['\"]?`: consume one quote if present. -/
def skipOptQuote : List Char → List Char
  | c :: rest => if isQuote c then rest else c :: rest
  | [] => []

/-- Regex `(\w+)`: maximal run of word characters, at least one. -/
def matchWord (s : List Char) : Option (String × List Char) :=
  let w := s.takeWhile isWordChar
  if w.isEmpty then none else some (⟨w⟩, s.dropWhile isWordChar)

/-- Regex `([^'\"]+)`: maximal run of non-quote characters, at least one. -/
def matchNonQuote (s : List Char) : Option (String × List Char) :=
  let w := s.takeWhile (fun c => !isQuote c)
  if w.isEmpty then none else some (⟨w⟩, s.dropWhile (fun c => !isQuote c))

/-- Regex `(\d+)`: maximal run of decimal digits, at least one. -/
def matchDigits (s : List Char) : Option (String × List Char) :=
  let w := s.takeWhile Char.isDigit
  if w.isEmpty then none else some (⟨w⟩, s.dropWhile Char.isDigit)

/-- Regex `([<>=!]+)`: maximal run of operator characters, at least one. -/
def matchOpChars (s : List Char) : Option (String × List Char) :=
  let w := s.takeWhile isOpChar
  if w.isEmpty then none else some (⟨w⟩, s.dropWhile isOpChar)

/-- Regex `(!=|==)`. -/
def matchEqOp (s : List Char) : Option (String × List Char) :=
  match stripLitS "!=" s with
  | some r => some ("!=", r)
  | none =>
    match stripLitS "==" s with
    | some r => some ("==", r)
    | none => none

/-- `re.search` as leftmost-position search: try the head matcher at every
suffix of the input, in order, including the empty suffix. -/
def searchWith (m : List Char → Option α) : List Char → Option α
  | [] => m []
  | c :: rest =>
    match m (c :: rest) with
    | some r => some r
    | none => searchWith m rest

/-- Pattern 1 of the Python source, tried at one position:
`\$\{__groovy\(vars\.get\(['\"](\w+)['\"]\)\s*(!=|==)\s*['\"]([^'\"]+)['\"]\)\}`. -/
def p1At (s : List Char) : Option (String × String × String) :=
  (stripLitS "$\x7b__groovy(vars.get(" s).bind fun s =>
  (matchQuote s).bind fun s =>
  (matchWord s).bind fun (v, s) =>
  (matchQuote s).bind fun s =>
  (stripLitS ")" s).bind fun s =>
  (matchEqOp (skipSpaces s)).bind fun (op, s) =>
  (matchQuote (skipSpaces s)).bind fun s =>
  (matchNonQuote s).bind fun (val, s) =>
  (matchQuote s).bind fun s =>
  (stripLitS ")\x7d" s).map fun _ => (v, op, val)

/-- Pattern 2, tried at one position:
`vars\.get\(['\"](\w+)['\"]\)\s*(!=|==)\s*['\"]([^'\"]+)['\"]`. -/
def p2At (s : List Char) : Option (String × String × String) :=
  (stripLitS "vars.get(" s).bind fun s =>
  (matchQuote s).bind fun s =>
  (matchWord s).bind fun (v, s) =>
  (matchQuote s).bind fun s =>
  (stripLitS ")" s).bind fun s =>
  (matchEqOp (skipSpaces s)).bind fun (op, s) =>
  (matchQuote (skipSpaces s)).bind fun s =>
  (matchNonQuote s).bind fun (val, s) =>
  (matchQuote s).map fun _ => (v, op, val)

/-- Pattern 3, tried at one position:
`\$\{(\w+)\}\s*(!=|==)\s*['\"]([^'\"]+)['\"]`. -/
def p3At (s : List Char) : Option (String × String × String) :=
  (stripLitS "$\x7b" s).bind fun s =>
  (matchWord s).bind fun (v, s) =>
  (stripLitS "\x7d" s).bind fun s =>
  (matchEqOp (skipSpaces s)).bind fun (op, s) =>
  (matchQuote (skipSpaces s)).bind fun s =>
  (matchNonQuote s).bind fun (val, s) =>
  (matchQuote s).map fun _ => (v, op, val)

/-- Pattern 4, tried at one position:
`\$\{__javaScript\(['\"]?\$\{(\w+)\}['\"]?\s*([<>=!]+)\s*['\"]?(\d+)['\"]?\)\}`. -/
def p4At (s : List Char) : Option (String × String × String) :=
  (stripLitS "$\x7b__javaScript(" s).bind fun s =>
  (stripLitS "$\x7b" (skipOptQuote s)).bind fun s =>
  (matchWord s).bind fun (v, s) =>
  (stripLitS "\x7d" s).bind fun s =>
  (matchOpChars (skipSpaces (skipOptQuote s))).bind fun (op, s) =>
  (matchDigits (skipOptQuote (skipSpaces s))).bind fun (val, s) =>
  (stripLitS ")\x7d" (skipOptQuote s)).map fun _ => (v, op, val)

/-- The ordered operator alternation `(!=|==|<|>|<=|>=)` of pattern 5. -/
def p5Ops : List String := ["!=", "==", "<", ">", "<=", ">="]

/-- Try the pattern-5 operator alternatives in regex order; for each one that
matches literally, the continuation `\s*(\d+)` must also succeed, otherwise
the engine backtracks to the next alternative. -/
def p5TryOps : List String → List Char → Option (String × String × List Char)
  | [], _ => none
  | op :: ops, s =>
    match stripLitS op s with
    | some r =>
      match matchDigits (skipSpaces r) with
      | some (d, r2) => some (op, d, r2)
      | none => p5TryOps ops s
    | none => p5TryOps ops s

/-- Pattern 5, tried at one position:
`\$\{(\w+)\}\s*(!=|==|<|>|<=|>=)\s*(\d+)`. -/
def p5At (s : List Char) : Option (String × String × String) :=
  (stripLitS "$\x7b" s).bind fun s =>
  (matchWord s).bind fun (v, s) =>
  (stripLitS "\x7d" s).bind fun s =>
  (p5TryOps p5Ops (skipSpaces s)).map fun (op, d, _) => (v, op, d)

/-- First regex of `_extract_iteration_limit`, tried at one position:
`getIteration\(\)\s*<=?\s*(\d+)`.  The optional `=` is consumed when
present; as the spaces-then-digits continuation can never succeed on a
leading `=`, no backtracking is required. -/
def iterLimAt1 (s : List Char) : Option Nat :=
  (stripLitS "getIteration()" s).bind fun s =>
  (stripLitS "<" (skipSpaces s)).bind fun s =>
  (matchDigits (skipSpaces (match stripLitS "=" s with | some r => r | none => s))).map
    fun (d, _) => digitsVal d.data

/-- Second regex of `_extract_iteration_limit`, tried at one position:
`getIteration\(\)\s*<\s*(\d+)`. -/
def iterLimAt2 (s : List Char) : Option Nat :=
  (stripLitS "getIteration()" s).bind fun s =>
  (stripLitS "<" (skipSpaces s)).bind fun s =>
  (matchDigits (skipSpaces s)).map fun (d, _) => digitsVal d.data

/-- `_extract_iteration_limit` from `groovy_converter.py`: search for an
`getIteration() <= N` (or `< N`) pattern and return `N`.  (The source
comment for the `<` case announces `value - 1` but the code returns the
value itself; that branch is unreachable anyway since the first regex
already matches every occurrence the second one does.) -/
def _extract_iteration_limit (expr : String) : Option Int :=
  match searchWith iterLimAt1 expr.data with
  | some n => some (n : Int)
  | none =>
    match searchWith iterLimAt2 expr.data with
    | some n => some (n : Int)
    | none => none

/-- The rewritten condition `${var} op 'value'` built by patterns 1–3. -/
def quotedCond (v op val : String) : String :=
  "$\x7b" ++ v ++ "\x7d " ++ op ++ " \x27" ++ val ++ "\x27"

/-- The rewritten condition `${var} op value` built by patterns 4 and 5. -/
def numCond (v op val : String) : String :=
  "$\x7b" ++ v ++ "\x7d " ++ op ++ " " ++ val

/-- `convert_groovy_to_condition` from `groovy_converter.py`: translate a
Groovy/JavaScript loop condition, returning the condition string, the
optional iteration cap, and the warnings. -/
def convert_groovy_to_condition (g : String) : String × Option Int × List String :=
  match searchWith p1At g.data with
  | some (v, op, val) => (quotedCond v op val, _extract_iteration_limit g, [])
  | none =>
  match searchWith p2At g.data with
  | some (v, op, val) => (quotedCond v op val, _extract_iteration_limit g, [])
  | none =>
  match searchWith p3At g.data with
  | some (v, op, val) => (quotedCond v op val, none, [])
  | none =>
  match searchWith p4At g.data with
  | some (v, op, val) => (numCond v op val, some (digitsVal val.data : Int), [])
  | none =>
  match searchWith p5At g.data with
  | some (v, op, val) => (numCond v op val, none, [])
  | none => (g, none, ["Could not convert Groovy expression: " ++ g])

/-- The input `${flag} == 'y' && getIteration() <= 100`: structurally matched
by pattern 3 (bare variable-reference comparison) while textually containing
the iteration-cap pattern. -/
def capCexInput : String :=
  "$\x7bflag\x7d == \x27y\x27 && getIteration() <= 100"

/-- C4 counterexample: the iteration-cap pattern is present in the input
(`_extract_iteration_limit` finds 100), yet because the structural match is
pattern 3 — a bare variable-reference pattern — the translator returns no
side output, contradicting the claim that the cap is returned regardless of
which of the five condition patterns matched. -/
theorem C4_counterexample :
    _extract_iteration_limit capCexInput = some 100
    ∧ (convert_groovy_to_condition capCexInput).2.1 = none := by
  constructor <;> decide

/-- C4 (amended): the iteration cap is computed and returned as the side
output only when pattern 1 or pattern 2 (the `vars.get`-based patterns)
structurally matches; pattern 4 returns its own matched numeric literal;
pattern 3, pattern 5 and unmatched input always yield no cap, even when the
iteration-accessor pattern occurs in the input; unmatched input is returned
unchanged together with a warning naming the untranslatable expression. -/
theorem C4_iteration_cap (g : String) :
    (searchWith p1At g.data ≠ none →
      (convert_groovy_to_condition g).2.1 = _extract_iteration_limit g)
    ∧ (searchWith p1At g.data = none → searchWith p2At g.data ≠ none →
      (convert_groovy_to_condition g).2.1 = _extract_iteration_limit g)
    ∧ (searchWith p1At g.data = none → searchWith p2At g.data = none →
       searchWith p3At g.data ≠ none →
      (convert_groovy_to_condition g).2.1 = none)
    ∧ (∀ v op val : String,
       searchWith p1At g.data = none → searchWith p2At g.data = none →
       searchWith p3At g.data = none → searchWith p4At g.data = some (v, op, val) →
      convert_groovy_to_condition g =
        (numCond v op val, some ((digitsVal val.data : Nat) : Int), []))
    ∧ (searchWith p1At g.data = none → searchWith p2At g.data = none →
       searchWith p3At g.data = none → searchWith p4At g.data = none →
       searchWith p5At g.data ≠ none →
      (convert_groovy_to_condition g).2.1 = none)
    ∧ (searchWith p1At g.data = none → searchWith p2At g.data = none →
       searchWith p3At g.data = none → searchWith p4At g.data = none →
       searchWith p5At g.data = none →
      convert_groovy_to_condition g =
        (g, none, ["Could not convert Groovy expression: " ++ g])) := by
  refine ⟨?_, ?_, ?_, ?_, ?_, ?_⟩
  · intro h1
    rcases Option.ne_none_iff_exists'.mp h1 with ⟨⟨v, op, val⟩, hr⟩
    unfold convert_groovy_to_condition
    rw [hr]
  · intro h1 h2
    rcases Option.ne_none_iff_exists'.mp h2 with ⟨⟨v, op, val⟩, hr⟩
    unfold convert_groovy_to_condition
    rw [h1, hr]
  · intro h1 h2 h3
    rcases Option.ne_none_iff_exists'.mp h3 with ⟨⟨v, op, val⟩, hr⟩
    unfold convert_groovy_to_condition
    rw [h1, h2, hr]
  · intro v op val h1 h2 h3 h4
    unfold convert_groovy_to_condition
    rw [h1, h2, h3, h4]
  · intro h1 h2 h3 h4 h5
    rcases Option.ne_none_iff_exists'.mp h5 with ⟨⟨v, op, val⟩, hr⟩
    unfold convert_groovy_to_condition
    rw [h1, h2, h3, h4, hr]
  · intro h1 h2 h3 h4 h5
    unfold convert_groovy_to_condition
    rw [h1, h2, h3, h4, h5]

/-- The input `${__javaScript("${count}" < "10")}`: structurally matched by
pattern 4, whose own numeric literal becomes the cap. -/
def capP4Input : String :=
  "$\x7b__javaScript(\x22$\x7bcount\x7d\x22 < \x2210\x22)\x7d"

/-- Concrete instantiations of `C4_iteration_cap`: on the pattern-3 input
containing a textual iteration cap, patterns 1 and 2 fail, pattern 3
matches and the side output is `none`; on a pattern-4 input, patterns 1–3
fail and the side output is the pattern's own matched literal 10. -/
theorem C4_witness :
    (convert_groovy_to_condition capCexInput).2.1 = none
    ∧ convert_groovy_to_condition capP4Input =
        (numCond "count" "<" "10", some ((digitsVal "10".data : Nat) : Int), []) :=
  ⟨(C4_iteration_cap capCexInput).2.2.1 (by decide) (by decide) (by decide),
   (C4_iteration_cap capP4Input).2.2.2.1 "count" "<" "10"
     (by decide) (by decide) (by decide) (by decide)⟩

/-! ### XML element model and property accessors (`converters/helpers.py`)

`xml.etree` elements become a tree of tag, attribute list, text and child
list.  Distinct tree positions are distinct Python objects, so the
positional treatment below coincides with CPython's identity-keyed
dictionaries. -/

/-- An XML element: tag, attributes, text content, child elements. -/
inductive Element where
  | mk (tag : String) (attrs : List (String × String)) (text : Option String)
      (children : List Element)

/-- The element's tag. -/
def Element.tag : Element → String
  | .mk t _ _ _ => t

/-- The element's attribute list. -/
def Element.attrs : Element → List (String × String)
  | .mk _ a _ _ => a

/-- The element's text content (`None` when absent). -/
def Element.text : Element → Option String
  | .mk _ _ tx _ => tx

/-- The element's direct XML children. -/
def Element.children : Element → List Element
  | .mk _ _ _ cs => cs

@[simp] lemma Element.tag_mk (t a x cs) : (Element.mk t a x cs).tag = t := rfl

@[simp] lemma Element.attrs_mk (t a x cs) : (Element.mk t a x cs).attrs = a := rfl

@[simp] lemma Element.text_mk (t a x cs) : (Element.mk t a x cs).text = x := rfl

@[simp] lemma Element.children_mk (t a x cs) : (Element.mk t a x cs).children = cs := rfl

lemma Element.sizeOf_children_lt (e : Element) : sizeOf e.children < sizeOf e := by
  cases e with
  | mk t a x cs => simp [Element.children]

/-- Python `element.get(name)`: attribute lookup, first match. -/
def attrVal (e : Element) (nm : String) : Option String :=
  (e.attrs.find? (fun kv => kv.1 == nm)).map (fun kv => kv.2)

/-- `element.find(f"{tg}[@name='{nm}']")`: first direct child with the given
tag and `name` attribute. -/
def findNamed (e : Element) (tg nm : String) : Option Element :=
  e.children.find? (fun c => c.tag == tg && attrVal c "name" == some nm)

/-- `get_string_prop` from `converters/helpers.py`. -/
def get_string_prop (e : Element) (nm : String) (dflt : String) : String :=
  match findNamed e "stringProp" nm with
  | some p =>
    match p.text with
    | some t => if t = "" then dflt else t
    | none => dflt
  | none => dflt

/-- `get_bool_prop` from `converters/helpers.py`. -/
def get_bool_prop (e : Element) (nm : String) (dflt : Bool) : Bool :=
  match findNamed e "boolProp" nm with
  | some p =>
    match p.text with
    | some t => if t = "" then dflt else pyLower t = "true"
    | none => dflt
  | none => dflt

/-- The `try: return int(prop.text)` step of `get_int_prop` for one
optional property element. -/
def tryIntFrom : Option Element → Option Int
  | some p =>
    (match p.text with
     | some t => if t = "" then none else pythonInt t
     | none => none)
  | none => none

/-- `get_int_prop` from `converters/helpers.py`: `intProp` first, then
`stringProp`, falling back to the default on absence or `ValueError`.
Its type shows it has no access to the warning channel. -/
def get_int_prop (e : Element) (nm : String) (dflt : Int) : Int :=
  match tryIntFrom (findNamed e "intProp" nm) with
  | some v => v
  | none =>
    match tryIntFrom (findNamed e "stringProp" nm) with
    | some v => v
    | none => dflt

/-- `get_attribute` from `converters/helpers.py`. -/
def get_attribute (e : Element) (nm dflt : String) : String :=
  (attrVal e nm).getD dflt

/-- `is_enabled` from `converters/helpers.py`. -/
def is_enabled (e : Element) : Bool :=
  pyLower ((attrVal e "enabled").getD "true") = "true"

/-- `normalize_variable_refs` from `converters/helpers.py`. -/
def normalize_variable_refs (t : String) : String :=
  if t = "" then t else t.replace "$$\x7b" "$\x7b"

/-- `strip_carriage_returns` from `converters/helpers.py`. -/
def strip_carriage_returns (t : String) : String :=
  if t = "" then t else t.replace "\r" ""

/-! ### Hierarchy builder (`JMXParser._process_hash_tree`)

`hbScan` returns the registrations performed by the scan of one `hashTree`'s
direct child sequence, in registration order, recursions included.  Each
entry pairs a registered node with its assigned direct-children list (the
non-`hashTree` children of its paired container). -/

/-- The direct-children list assigned to a paired node: the non-container
children of its following `hashTree`. -/
def nonContainerChildren (t : Element) : List Element :=
  t.children.filter (fun g => g.tag != "hashTree")

/-- The registrations performed by `_process_hash_tree` on a sibling list:
a non-container node is always followed by `i += 2`; it is paired with a
children list exactly when the next sibling is a `hashTree` container, in
which case the scan also recurses into that container. -/
def hbScan : List Element → List (Element × List Element)
  | [] => []
  | c :: rest =>
    if c.tag = "hashTree" then hbScan rest
    else
      match rest with
      | [] => [(c, [])]
      | t :: rest2 =>
        if t.tag = "hashTree" then
          (c, nonContainerChildren t) :: (hbScan t.children ++ hbScan rest2)
        else (c, []) :: hbScan rest2
termination_by cs => sizeOf cs
decreasing_by
  · simp only [List.cons.sizeOf_spec]; omega
  · have h := Element.sizeOf_children_lt t
    simp only [List.cons.sizeOf_spec] at h ⊢
    omega
  · simp only [List.cons.sizeOf_spec]; omega
  · simp only [List.cons.sizeOf_spec]; omega

/-- Every other entry of a list (indices 0, 2, 4, …). -/
def everyOther : List α → List α
  | [] => []
  | [a] => [a]
  | a :: _ :: rest => a :: everyOther rest

/-- Concrete sibling sequences for the C1 counterexample. -/
def nodeA : Element := .mk "ThreadGroup" [] none []

/-- Second non-container sibling for the C1 counterexample. -/
def nodeB : Element := .mk "HTTPSamplerProxy" [] none []

/-- C1 counterexample: in the sibling sequence `[nodeA, nodeB]` both nodes
are non-containers and `nodeA` is not followed by a container, yet the scan
advances by 2 (not 1) after `nodeA`: `nodeB` is never visited and never
registered in the lookup (the registration list contains only `nodeA`),
contradicting the claimed advance-by-1 that would register `nodeB`. -/
theorem C1_counterexample :
    nodeA.tag ≠ "hashTree" ∧ nodeB.tag ≠ "hashTree" ∧ nodeA ≠ nodeB
    ∧ hbScan [nodeA, nodeB] = [(nodeA, [])] := by
  refine ⟨by decide, by decide, ?_, ?_⟩
  · intro h
    have := congrArg Element.tag h
    simp [nodeA, nodeB] at this
  · simp [hbScan, nodeA, nodeB]

/-- C1 (amended): when sibling `i` is a non-container node the scan always
advances by 2, even when sibling `i+1` is itself a non-container node — the
immediately following sibling is then skipped and left unregistered; the
scan advances by 1 only when sibling `i` is a container.  Consequently, on a
sibling sequence with no containers exactly the even-indexed nodes are
registered, each with an empty child list; a node that is followed by a
container is registered with that container's non-container children. -/
theorem C1_amended_scan :
    (∀ cs : List Element, (∀ e ∈ cs, e.tag ≠ "hashTree") →
      hbScan cs = (everyOther cs).map (fun e => (e, [])))
    ∧ (∀ (c t : Element) (rest : List Element),
        c.tag ≠ "hashTree" → t.tag = "hashTree" →
        hbScan (c :: t :: rest) =
          (c, nonContainerChildren t) :: (hbScan t.children ++ hbScan rest))
    ∧ (∀ (c t : Element) (rest : List Element),
        c.tag ≠ "hashTree" → t.tag ≠ "hashTree" →
        hbScan (c :: t :: rest) = (c, []) :: hbScan rest)
    ∧ (∀ c : Element, c.tag ≠ "hashTree" → hbScan [c] = [(c, [])]) := by
  refine ⟨?_, ?_, ?_, ?_⟩
  · intro cs
    induction cs using everyOther.induct with
    | case1 => intro _; simp [hbScan, everyOther]
    | case2 a =>
      intro h
      have ha := h a (by simp)
      simp [hbScan, ha, everyOther]
    | case3 a b rest ih =>
      intro h
      have ha := h a (by simp)
      have hb := h b (by simp)
      have hrest : ∀ e ∈ rest, e.tag ≠ "hashTree" := fun e he => h e (by simp [he])
      simp [hbScan, everyOther, ha, hb, ih hrest]
  · intro c t rest hc ht
    simp only [hbScan, if_neg hc, if_pos ht]
  · intro c t rest hc ht
    simp only [hbScan, if_neg hc, if_neg ht]
  · intro c hc
    simp only [hbScan, if_neg hc]

/-- Concrete instantiation of `C1_amended_scan`: a container-free sequence of
three nodes registers only indices 0 and 2, and a node paired with a
container is registered with the container's non-container children. -/
theorem C1_witness :
    hbScan [nodeA, nodeB, nodeA] = [(nodeA, []), (nodeA, [])]
    ∧ hbScan [nodeA, Element.mk "hashTree" [] none [nodeB]] =
        [(nodeA, [nodeB]), (nodeB, [])] := by
  constructor
  · have := (C1_amended_scan.1) [nodeA, nodeB, nodeA] (by decide)
    simpa [everyOther] using this
  · have := (C1_amended_scan.2.1) nodeA (Element.mk "hashTree" [] none [nodeB]) []
      (by decide) (by decide)
    rw [this]
    simp [hbScan, nonContainerChildren, nodeB]

/-! ### Document iteration and global settings (`jmx_parser.py`) -/

mutual

/-- `element.iter()` in document order: the element itself followed by the
preorder traversal of its children. -/
def iterAll : Element → List Element
  | .mk t a x cs => .mk t a x cs :: iterAllList cs

/-- Preorder traversal of a list of sibling subtrees. -/
def iterAllList : List Element → List Element
  | [] => []
  | c :: rest => iterAll c ++ iterAllList rest

end

/-- `element.find(".//...")`: first matching descendant in document order
(the element itself excluded). -/
def findDescendant (e : Element) (p : Element → Bool) : Option Element :=
  (iterAllList e.children).find? p

/-- `ScenarioSettings` from `core/data_types.py` (the step list and
description concern other components). -/
structure ScenarioSettings where
  threads : Int
  rampup : Int
  loops : Option Int
  duration : Option Int
  base_url : Option String
deriving DecidableEq, Repr

/-- The all-default `ScenarioSettings()`. -/
def defaultSettings : ScenarioSettings :=
  ⟨1, 0, none, none, none⟩

/-- The loop-count extraction of `_extract_thread_settings` (lines 315–324):
`"-1"` maps to 0 (infinite); otherwise `int(...)` with a silent fallback
to 1 on `ValueError`.  No warning channel is touched. -/
def loopsFromController (ctrl : Element) : Int :=
  let l := get_string_prop ctrl "LoopController.loops" "1"
  if l = "-1" then 0
  else
    match pythonInt l with
    | some n => n
    | none => 1

/-- `JMXParser._extract_thread_settings`: settings from the first
`ThreadGroup`, together with the warnings appended to the parser's warning
channel during this extraction. -/
def _extract_thread_settings (root : Element) : ScenarioSettings × List String :=
  match (iterAll root).filter (fun e => e.tag == "ThreadGroup") with
  | [] => (defaultSettings, [])
  | tg :: restTG =>
    let ws :=
      if restTG.length + 1 > 1 then
        ["Multiple ThreadGroups found (" ++ toString (restTG.length + 1) ++ "), using first only"]
      else []
    let threads := get_int_prop tg "ThreadGroup.num_threads" 1
    let rampup := get_int_prop tg "ThreadGroup.ramp_time" 0
    let sched := get_bool_prop tg "ThreadGroup.scheduler" false
    let dur := if sched then some (get_int_prop tg "ThreadGroup.duration" 0) else none
    let loops :=
      match findDescendant tg (fun c =>
          c.tag == "elementProp" && attrVal c "name" == some "ThreadGroup.main_controller") with
      | none => none
      | some ctrl => some (loopsFromController ctrl)
    (⟨threads, rampup, loops, dur, none⟩, ws)

/-- A `ThreadGroup` whose main controller carries the non-numeric loop count
`"abc"`, for the C5 counterexample. -/
def badLoopsTG : Element :=
  .mk "ThreadGroup" [] none
    [.mk "elementProp" [("name", "ThreadGroup.main_controller")] none
      [.mk "stringProp" [("name", "LoopController.loops")] (some "abc") []]]

/-- A document containing `badLoopsTG`, for the C5 counterexample. -/
def badLoopsDoc : Element :=
  .mk "jmeterTestPlan" [] none [.mk "hashTree" [] none [badLoopsTG]]

/-- C5 counterexample: a non-numeric thread-group loop count (`"abc"`) is
silently replaced by the default 1 — the settings extraction emits no
warning at all on this document, contradicting the claim that every
malformed numeric value produces a warning.  (The integer-property accessor
`get_int_prop` likewise returns its default for non-numeric text and, by its
very type, has no access to the warning channel.) -/
theorem C5_counterexample :
    (_extract_thread_settings badLoopsDoc).1.loops = some 1
    ∧ (_extract_thread_settings badLoopsDoc).2 = []
    ∧ get_string_prop
        (Element.mk "elementProp" [("name", "ThreadGroup.main_controller")] none
          [Element.mk "stringProp" [("name", "LoopController.loops")] (some "abc") []])
        "LoopController.loops" "1" = "abc" := by
  refine ⟨?_, ?_, by decide⟩ <;>
    simp [_extract_thread_settings, badLoopsDoc, badLoopsTG, iterAll, iterAllList,
      findDescendant, loopsFromController, get_string_prop, findNamed, attrVal,
      pythonInt, pyStrip, isPyWs, get_int_prop, tryIntFrom, get_bool_prop,
      defaultSettings]

/-- C5 (amended): malformed numeric values fall back to their documented
defaults silently.  The only warning the thread-settings extraction can ever
emit is the multiple-thread-groups warning; in particular a non-numeric loop
count yields `loops = 1` with no warning, and `get_int_prop` (used for
thread counts, ramp-up, durations, assertion inputs) returns its default on
non-numeric text with no warning channel available to it. -/
theorem C5_silent_defaults :
    (∀ root : Element, ∀ w ∈ (_extract_thread_settings root).2, ∃ n : Nat,
      w = "Multiple ThreadGroups found (" ++ toString n ++ "), using first only")
    ∧ (∀ ctrl : Element, get_string_prop ctrl "LoopController.loops" "1" ≠ "-1" →
        pythonInt (get_string_prop ctrl "LoopController.loops" "1") = none →
        loopsFromController ctrl = 1) := by
  constructor
  · intro root w hw
    unfold _extract_thread_settings at hw
    rcases hf : (iterAll root).filter (fun e => e.tag == "ThreadGroup") with _ | ⟨tg, restTG⟩
    · rw [hf] at hw
      simp at hw
    · rw [hf] at hw
      simp only at hw
      by_cases hlen : restTG.length + 1 > 1
      · rw [if_pos hlen] at hw
        simp at hw
        exact ⟨restTG.length + 1, hw⟩
      · rw [if_neg hlen] at hw
        simp at hw
  · intro ctrl h1 h2
    unfold loopsFromController
    rw [if_neg h1, h2]

set_option maxRecDepth 4000 in
/-- Concrete instantiation of `C5_silent_defaults`: a document with two
thread groups emits exactly the multiple-thread-groups warning (which is
therefore of the stated shape), and the `"abc"` controller falls back
to 1. -/
theorem C5_witness :
    (∃ n : Nat,
      ("Multiple ThreadGroups found (" ++ toString (2 : Nat) ++ "), using first only") =
        "Multiple ThreadGroups found (" ++ toString n ++ "), using first only")
    ∧ loopsFromController
        (Element.mk "elementProp" [("name", "ThreadGroup.main_controller")] none
          [Element.mk "stringProp" [("name", "LoopController.loops")] (some "abc") []]) = 1 := by
  constructor
  · exact C5_silent_defaults.1
      (Element.mk "root" [] none
        [Element.mk "ThreadGroup" [] none [], Element.mk "ThreadGroup" [] none []])
      ("Multiple ThreadGroups found (" ++ toString (2 : Nat) ++ "), using first only")
      (by simp [_extract_thread_settings, iterAll, iterAllList, get_int_prop, tryIntFrom,
        findNamed, get_bool_prop, findDescendant, attrVal])
  · exact C5_silent_defaults.2 _ (by decide) (by decide)

/-- `JMXParser._build_base_url`. -/
def _build_base_url (domain port protocol : String) : String :=
  if domain = "" then ""
  else
    let p := if protocol = "" then "http" else protocol
    if port ≠ "" ∧ port ≠ "80" ∧ port ≠ "443" then p ++ "://" ++ domain ++ ":" ++ port
    else if port = "443" ∧ p = "https" then "https://" ++ domain
    else if port = "80" ∧ p = "http" then "http://" ++ domain
    else p ++ "://" ++ domain

/-- C10: for a non-empty domain the base URL carries an explicit `:port`
suffix exactly when the port string is non-empty and neither `"80"` nor
`"443"`; in every other case — including port `"443"` with protocol
`"http"` and port `"80"` with `"https"` — the port is silently omitted and
the URL is just `protocol://domain` (protocol defaulting to `http` when
empty). -/
theorem C10_base_url (domain port protocol : String) (hd : domain ≠ "") :
    _build_base_url domain port protocol =
      (let p := if protocol = "" then "http" else protocol
       if port ≠ "" ∧ port ≠ "80" ∧ port ≠ "443" then p ++ "://" ++ domain ++ ":" ++ port
       else p ++ "://" ++ domain) := by
  unfold _build_base_url
  rw [if_neg hd]
  by_cases h : port ≠ "" ∧ port ≠ "80" ∧ port ≠ "443"
  · simp only [if_pos h]
  · simp only [if_neg h]
    by_cases h443 : port = "443" ∧ (if protocol = "" then "http" else protocol) = "https"
    · rw [if_pos h443, h443.2]
      rw [show ("https" ++ "://" : String) = "https://" from rfl]
    · rw [if_neg h443]
      by_cases h80 : port = "80" ∧ (if protocol = "" then "http" else protocol) = "http"
      · rw [if_pos h80, h80.2]
        rw [show ("http" ++ "://" : String) = "http://" from rfl]
      · rw [if_neg h80]

/-- Concrete instantiation of `C10_base_url`: port 443 over plain `http` is
silently dropped, yielding `http://example.com`. -/
theorem C10_witness :
    _build_base_url "example.com" "443" "http" = "http://example.com" := by
  have := C10_base_url "example.com" "443" "http" (by decide)
  rw [this]
  decide

/-! ### Intermediate data model (`core/data_types.py`) -/

/-- A decoded JSON value (numbers restricted to integers; the decoder itself
stays abstract, see `_extract_request_body`). -/
inductive JsonVal where
  | null
  | bool (b : Bool)
  | num (n : Int)
  | str (s : String)
  | arr (xs : List JsonVal)
  | obj (fs : List (String × JsonVal))

/-- A request payload: a JSON-decoded structure or a raw string. -/
def Payload : Type := JsonVal ⊕ String

/-- `CaptureConfig` from `core/data_types.py` (`matchSel` models the `match`
field, a Python keyword-free name being required here). -/
structure CaptureConfig where
  variable_name : String
  jsonpath : String
  matchSel : String
deriving DecidableEq, Repr

/-- `FileConfig` from `core/data_types.py`. -/
structure FileConfig where
  path : String
  param : String
  mime_type : Option String
deriving DecidableEq, Repr

/-- `AssertConfig` from `core/data_types.py`; the `body` map holds the
exact-match leaf fields. -/
structure AssertConfig where
  status : Option Int
  body : List (String × String)
  body_contains : List String
  headers : List (String × String)
deriving DecidableEq, Repr

/-- `LoopConfig` from `core/data_types.py` (`varName` models `variable`). -/
structure LoopConfig where
  count : Option Int
  while_condition : Option String
  max_iterations : Int
  interval : Option Int
  varName : Option String
deriving DecidableEq, Repr

/-- `ParsingContext` from `core/data_types.py`. -/
structure ParsingContext where
  in_random_controller : Bool
  transaction_name : Option String
  pending_think_time : Option Int
deriving DecidableEq, Repr

/-- `ExtractedSampler` from `core/data_types.py`; dictionaries become
ordered association lists. -/
structure ExtractedSampler where
  name : String
  method : String
  path : String
  enabled : Bool
  domain : String
  port : String
  protocol : String
  payload : Option Payload
  params : List (String × String)
  headers : List (String × String)
  files : List FileConfig
  captures : List CaptureConfig
  assertions : Option AssertConfig
  loop : Option LoopConfig
  think_time : Option Int
  random : Bool

/-- Python ordered-`dict` insertion: an existing key keeps its position and
gets the new value, a new key is appended at the end. -/
def dictInsert (d : List (String × String)) (k v : String) : List (String × String) :=
  if d.any (fun kv => kv.1 == k) then
    d.map (fun kv => if kv.1 == k then (k, v) else kv)
  else d ++ [(k, v)]

/-- Python `d.update(add)`: insert every pair of `add` in order. -/
def dictUpdate (d add : List (String × String)) : List (String × String) :=
  add.foldl (fun acc kv => dictInsert acc kv.1 kv.2) d

/-! ### Request body extraction (`JMXParser._extract_request_body`)

`jsonLoads` abstracts the standard library's `json.loads`: any function
returning a decoded value on success and `none` on `JSONDecodeError`.  All
theorems below hold for every such function. -/

/-- The raw-body loop of `_extract_request_body`: the first argument whose
value is non-blank after trimming and stripping carriage returns becomes the
payload — JSON-decoded when the strict parse succeeds, the raw trimmed
string otherwise. -/
def rawBodyScan (jsonLoads : String → Option JsonVal) : List Element → Option Payload
  | [] => none
  | arg :: rest =>
    let v := get_string_prop arg "Argument.value" ""
    if v = "" then rawBodyScan jsonLoads rest
    else
      let v2 := strip_carriage_returns (pyStrip v)
      if v2 = "" then rawBodyScan jsonLoads rest
      else
        match jsonLoads v2 with
        | some j => some (Sum.inl j)
        | none => some (Sum.inr v2)

/-- The form-parameters loop of `_extract_request_body`: the argument
collection becomes a name → normalized-value map. -/
def formParams (argsList : List Element) : List (String × String) :=
  argsList.foldl
    (fun d arg =>
      let n := get_string_prop arg "Argument.name" ""
      if n = "" then d
      else dictInsert d n (normalize_variable_refs (get_string_prop arg "Argument.value" "")))
    []

/-- `JMXParser._extract_request_body`: returns `(payload, params)`. -/
def _extract_request_body (jsonLoads : String → Option JsonVal) (sampler : Element) :
    Option Payload × List (String × String) :=
  let is_raw := get_bool_prop sampler "HTTPSampler.postBodyRaw" false
  match findDescendant sampler (fun c =>
      c.tag == "elementProp" && attrVal c "name" == some "HTTPsampler.Arguments") with
  | none => (none, [])
  | some args =>
    match findNamed args "collectionProp" "Arguments.arguments" with
    | none => (none, [])
    | some coll =>
      if is_raw then
        (rawBodyScan jsonLoads (coll.children.filter (fun c => c.tag == "elementProp")), [])
      else
        (none, formParams (coll.children.filter (fun c => c.tag == "elementProp")))

/-- C6: payload and params are mutually exclusive — for every JSON decoder
and every sampler element, the body/params extraction returns either a
payload with an empty params map (raw-body mode) or no payload with a
(possibly empty) params map (form mode); never both populated.  Moreover
the raw-body branch always has empty params and the form branch never has a
payload. -/
theorem C6_payload_xor_params (jsonLoads : String → Option JsonVal) (sampler : Element) :
    ((_extract_request_body jsonLoads sampler).1 = none
      ∨ (_extract_request_body jsonLoads sampler).2 = [])
    ∧ (get_bool_prop sampler "HTTPSampler.postBodyRaw" false = true →
        (_extract_request_body jsonLoads sampler).2 = [])
    ∧ (get_bool_prop sampler "HTTPSampler.postBodyRaw" false = false →
        (_extract_request_body jsonLoads sampler).1 = none) := by
  rcases hfd : findDescendant sampler (fun c =>
      c.tag == "elementProp" && attrVal c "name" == some "HTTPsampler.Arguments") with _ | args
  · refine ⟨Or.inl ?_, fun _ => ?_, fun _ => ?_⟩ <;>
      simp [_extract_request_body, hfd]
  · rcases hfn : findNamed args "collectionProp" "Arguments.arguments" with _ | coll
    · refine ⟨Or.inl ?_, fun _ => ?_, fun _ => ?_⟩ <;>
        simp [_extract_request_body, hfd, hfn]
    · by_cases hr : get_bool_prop sampler "HTTPSampler.postBodyRaw" false = true
      · refine ⟨Or.inr ?_, fun _ => ?_, fun hf => ?_⟩
        · simp [_extract_request_body, hfd, hfn, hr]
        · simp [_extract_request_body, hfd, hfn, hr]
        · rw [hr] at hf; exact absurd hf (by simp)
      · have hf : get_bool_prop sampler "HTTPSampler.postBodyRaw" false = false := by
          simpa using hr
        refine ⟨Or.inl ?_, fun ht => ?_, fun _ => ?_⟩
        · simp [_extract_request_body, hfd, hfn, hf]
        · rw [hf] at ht; exact absurd ht (by simp)
        · simp [_extract_request_body, hfd, hfn, hf]

/-! ### Per-sampler sub-extractors (`jmx_parser.py`) -/

/-- `JMXParser._extract_headers_from_manager`: header names have leading
dashes and spaces stripped, values are variable-reference-normalized. -/
def _extract_headers_from_manager (mgr : Element) : List (String × String) :=
  match findNamed mgr "collectionProp" "HeaderManager.headers" with
  | none => []
  | some coll =>
    (coll.children.filter (fun c => c.tag == "elementProp")).foldl
      (fun hs ep =>
        let n := get_string_prop ep "Header.name" ""
        if n = "" then hs
        else
          dictInsert hs (pyLStrip n "- ")
            (normalize_variable_refs (get_string_prop ep "Header.value" "")))
      []

/-- `JMXParser._extract_headers`: merge the header managers found among the
sampler's hierarchy children. -/
def _extract_headers (children : List Element) : List (String × String) :=
  children.foldl
    (fun hs c =>
      if c.tag == "HeaderManager" then dictUpdate hs (_extract_headers_from_manager c) else hs)
    []

/-- `JMXParser._extract_files`: file arguments with both a path and a
parameter name become file records; an empty mime-type is omitted. -/
def _extract_files (sampler : Element) : List FileConfig :=
  match findDescendant sampler (fun c =>
      c.tag == "elementProp" && attrVal c "name" == some "HTTPsampler.Files") with
  | none => []
  | some fa =>
    match findNamed fa "collectionProp" "HTTPFileArgs.files" with
    | none => []
    | some coll =>
      (coll.children.filter (fun c => c.tag == "elementProp")).foldl
        (fun fs fp =>
          if attrVal fp "elementType" ≠ some "HTTPFileArg" then fs
          else
            let pathv := get_string_prop fp "File.path" ""
            let param := get_string_prop fp "File.paramname" ""
            let mt := get_string_prop fp "File.mimetype" ""
            if pathv ≠ "" ∧ param ≠ "" then
              fs ++ [⟨normalize_variable_refs pathv, param, if mt ≠ "" then some mt else none⟩]
            else fs)
        []

/-- The per-`JSONPostProcessor` step of `_extract_captures`: split the
reference names and JSONPath expressions on commas, default a missing path
to `$.<name>`, convert the match count. -/
def capturesFromOne (child : Element) : List CaptureConfig × List String :=
  let names := ((get_string_prop child "JSONPostProcessor.referenceNames" "").splitOn ",").map
    pyStrip |>.filter (fun x => x ≠ "")
  let paths := ((get_string_prop child "JSONPostProcessor.jsonPathExprs" "").splitOn ",").map
    pyStrip |>.filter (fun x => x ≠ "")
  let conv := convert_match_number (get_string_prop child "JSONPostProcessor.match_numbers" "")
  (names.enum.map (fun p => ⟨p.2, paths.getD p.1 ("$." ++ p.2), conv.1⟩), conv.2)

/-- `JMXParser._extract_captures`, returning the captures and the warnings
appended to the parser's warning channel. -/
def _extract_captures (children : List Element) : List CaptureConfig × List String :=
  children.foldl
    (fun acc c =>
      if c.tag == "JSONPostProcessor" && is_enabled c then
        ((acc.1 ++ (capturesFromOne c).1, acc.2 ++ (capturesFromOne c).2))
      else acc)
    ([], [])

/-- The first `stringProp` child with truthy text (the response-code loop of
`_extract_assertions` breaks at it, parsed or not). -/
def firstTruthyText (ts : Element) : Option String :=
  ((ts.children.filter (fun c => c.tag == "stringProp")).filterMap
    (fun c => match c.text with
      | some t => if t = "" then none else some t
      | none => none)).head?

/-- All `stringProp` children texts that are truthy (the response-data loop
of `_extract_assertions` keeps them all). -/
def truthyTexts (ts : Element) : List String :=
  (ts.children.filter (fun c => c.tag == "stringProp")).filterMap
    (fun c => match c.text with
      | some t => if t = "" then none else some t
      | none => none)

/-- One iteration of the `_extract_assertions` loop over a sampler child,
threading the mutable `(config, has_assertion)` pair. -/
def assertStep (st : AssertConfig × Bool) (child : Element) : AssertConfig × Bool :=
  if ¬ is_enabled child then st
  else if child.tag = "ResponseAssertion" then
    let test_field := get_string_prop child "Assertion.test_field" ""
    let test_strings :=
      match findNamed child "collectionProp" "Asserion.test_strings" with
      | some c => some c
      | none => findNamed child "collectionProp" "Assertion.test_strings"
    match test_strings with
    | none => st
    | some ts =>
      if test_field = "Assertion.response_code" then
        match firstTruthyText ts with
        | none => st
        | some txt =>
          match pythonInt txt with
          | some v => ({ st.1 with status := some v }, true)
          | none => st
      else if test_field = "Assertion.response_data" then
        match truthyTexts ts with
        | [] => st
        | adds => ({ st.1 with body_contains := st.1.body_contains ++ adds }, true)
      else st
  else if child.tag = "JSONPathAssertion" then
    let jp := get_string_prop child "JSON_PATH" ""
    let ev := get_string_prop child "EXPECTED_VALUE" ""
    if jp ≠ "" ∧ ev ≠ "" then
      let fieldName := pyLStrip jp "$."
      if fieldName.data.all (fun c => c ≠ '.' ∧ c ≠ '[') then
        ({ st.1 with body := dictInsert st.1.body fieldName ev }, true)
      else st
    else st
  else st

/-- `JMXParser._extract_assertions`: `None` when no field became active. -/
def _extract_assertions (children : List Element) : Option AssertConfig :=
  let st := children.foldl assertStep (⟨none, [], [], []⟩, false)
  if st.2 then some st.1 else none

/-- `JMXParser._extract_timers`: the first qualifying enabled timer wins. -/
def _extract_timers : List Element → Option Int
  | [] => none
  | c :: rest =>
    if ¬ is_enabled c then _extract_timers rest
    else if c.tag = "ConstantTimer" then
      let d := get_int_prop c "ConstantTimer.delay" 0
      if d > 0 then some d else _extract_timers rest
    else if c.tag = "UniformRandomTimer" then
      let con := get_int_prop c "ConstantTimer.delay" 0
      let rg := get_int_prop c "RandomTimer.range" 0
      let avg := con + Int.fdiv rg 2
      if avg > 0 then some avg else _extract_timers rest
    else _extract_timers rest

/-- `JMXParser._extract_sampler_data`: assemble the full record for one
`HTTPSamplerProxy`, returning it with the warnings appended during capture
extraction.  `_extract_loop_config` is the documented stub returning
`None`. -/
def _extract_sampler_data (jsonLoads : String → Option JsonVal)
    (global_headers : List (String × String)) (sampler : Element)
    (children : List Element) : ExtractedSampler × List String :=
  let body := _extract_request_body jsonLoads sampler
  let caps := _extract_captures children
  (⟨get_attribute sampler "testname" "HTTP Request",
    get_string_prop sampler "HTTPSampler.method" "GET",
    normalize_variable_refs (get_string_prop sampler "HTTPSampler.path" "/"),
    is_enabled sampler,
    get_string_prop sampler "HTTPSampler.domain" "",
    get_string_prop sampler "HTTPSampler.port" "",
    get_string_prop sampler "HTTPSampler.protocol" "",
    body.1, body.2,
    dictUpdate global_headers (_extract_headers children),
    _extract_files sampler,
    caps.1,
    _extract_assertions children,
    none,
    _extract_timers children,
    false⟩, caps.2)

/-! ### Recursive sampler extraction (`JMXParser._extract_samplers_recursive`)

The hierarchy map built by `_process_hash_tree` is keyed by object identity
in the source; since every tree position is a distinct object, the map is
equivalent to the positional forest `hforest` below: every non-container
child of a `hashTree` appears as a node, paired (via the scan of
`_process_hash_tree`, skips included) with its assigned children — `[]` for
a node the scan skipped over (`_get_children`'s default for unregistered
nodes) and for a node with no following container. -/

/-- A node of the reconstructed hierarchy: the element and its assigned
direct children. -/
inductive HNode where
  | mk (elem : Element) (kids : List HNode)

/-- The node's element. -/
def HNode.elem : HNode → Element
  | .mk e _ => e

/-- The node's assigned children. -/
def HNode.kids : HNode → List HNode
  | .mk _ ks => ks

@[simp] lemma HNode.elem_mk (e ks) : (HNode.mk e ks).elem = e := rfl

@[simp] lemma HNode.kids_mk (e ks) : (HNode.mk e ks).kids = ks := rfl

lemma HNode.sizeOf_kids_lt (n : HNode) : sizeOf n.kids < sizeOf n := by
  cases n with
  | mk e ks => simp [HNode.kids]

/-- The hierarchy forest determined by `_process_hash_tree`'s scan of a
`hashTree`'s child sequence: a node paired with a following container gets
that container's forest as children; a node the scan stepped over (always
by 2 after a non-container) is present but childless; an orphan container
is dropped and its contents never processed. -/
def hforest : List Element → List HNode
  | [] => []
  | c :: rest =>
    if c.tag = "hashTree" then hforest rest
    else
      match rest with
      | [] => [.mk c []]
      | t :: rest2 =>
        if t.tag = "hashTree" then .mk c (hforest t.children) :: hforest rest2
        else .mk c [] :: .mk t [] :: hforest rest2
termination_by cs => sizeOf cs
decreasing_by
  · simp only [List.cons.sizeOf_spec]; omega
  · have h := Element.sizeOf_children_lt t
    simp only [List.cons.sizeOf_spec] at h ⊢
    omega
  · simp only [List.cons.sizeOf_spec]; omega
  · simp only [List.cons.sizeOf_spec]; omega

/-- `SUPPORTED_SAMPLERS` of `JMXParser`. -/
def SUPPORTED_SAMPLERS : List String := ["HTTPSamplerProxy"]

/-- `UNSUPPORTED_ELEMENTS` of `JMXParser`, with the skip reasons. -/
def UNSUPPORTED_ELEMENTS : List (String × String) :=
  [("JSR223Sampler", "Groovy/JavaScript scripts not portable"),
   ("BeanShellSampler", "BeanShell scripts not portable"),
   ("RegexExtractor", "Regex extraction not supported in pt_scenario"),
   ("CSVDataSetConfig", "External data sources not supported")]

/-- The think-time consumption test `current_context.pending_think_time and
sampler.think_time is None` (Python truthiness: a pending 0 is falsy). -/
def pendingApplies (ctx : ParsingContext) (tt : Option Int) : Bool :=
  match ctx.pending_think_time with
  | some d => d ≠ 0 && tt = none
  | none => false

/-- The context transformations applied to a freshly extracted sampler
record (lines 429–437 of `jmx_parser.py`). -/
def applyContext (ctx : ParsingContext) (s : ExtractedSampler) : ExtractedSampler :=
  let s1 := if ctx.in_random_controller then { s with random := true } else s
  let s2 :=
    match ctx.transaction_name with
    | some tx => if tx ≠ "" then { s1 with name := tx ++ ": " ++ s1.name } else s1
    | none => s1
  if pendingApplies ctx s2.think_time then
    { s2 with think_time := ctx.pending_think_time }
  else s2

/-- `JMXParser._extract_samplers_recursive`, expressed over the hierarchy
forest: walk the children of the current node threading the locally-tracked
context, returning the extracted records and the warnings in emission
order. -/
def walkSiblings (jsonLoads : String → Option JsonVal)
    (global_headers : List (String × String)) :
    List HNode → ParsingContext → List ExtractedSampler × List String
  | [], _ => ([], [])
  | n :: rest, ctx =>
    let child := n.elem
    if ¬ is_enabled child then walkSiblings jsonLoads global_headers rest ctx
    else if child.tag = "RandomController" then
      let sub := walkSiblings jsonLoads global_headers n.kids
        ⟨true, ctx.transaction_name, ctx.pending_think_time⟩
      let cont := walkSiblings jsonLoads global_headers rest ctx
      (sub.1 ++ cont.1, sub.2 ++ cont.2)
    else if child.tag = "TransactionController" then
      let sub := walkSiblings jsonLoads global_headers n.kids
        ⟨ctx.in_random_controller, some (get_attribute child "testname" "Transaction"),
          ctx.pending_think_time⟩
      let cont := walkSiblings jsonLoads global_headers rest ctx
      (sub.1 ++ cont.1, sub.2 ++ cont.2)
    else if child.tag = "TestAction" then
      let ctx2 :=
        if get_int_prop child "TestAction.action" 0 = 1
            ∧ get_int_prop child "TestAction.duration" 0 > 0 then
          ⟨ctx.in_random_controller, ctx.transaction_name,
            some (get_int_prop child "TestAction.duration" 0)⟩
        else ctx
      let sub := walkSiblings jsonLoads global_headers n.kids ctx2
      let cont := walkSiblings jsonLoads global_headers rest ctx2
      (sub.1 ++ cont.1, sub.2 ++ cont.2)
    else if child.tag ∈ SUPPORTED_SAMPLERS then
      let ex := _extract_sampler_data jsonLoads global_headers child (n.kids.map HNode.elem)
      let cont := walkSiblings jsonLoads global_headers rest
        ⟨ctx.in_random_controller, ctx.transaction_name, none⟩
      (applyContext ctx ex.1 :: cont.1, ex.2 ++ cont.2)
    else if (UNSUPPORTED_ELEMENTS.lookup child.tag).isSome then
      let reason := (UNSUPPORTED_ELEMENTS.lookup child.tag).getD ""
      let nm := (attrVal child "testname").getD child.tag
      let cont := walkSiblings jsonLoads global_headers rest ctx
      (cont.1, (nm ++ " ignored (" ++ reason ++ ")") :: cont.2)
    else
      let sub := walkSiblings jsonLoads global_headers n.kids ctx
      let cont := walkSiblings jsonLoads global_headers rest ctx
      (sub.1 ++ cont.1, sub.2 ++ cont.2)
termination_by ns _ => sizeOf ns
decreasing_by
  all_goals
    first
      | (simp only [List.cons.sizeOf_spec]; omega)
      | (have h := HNode.sizeOf_kids_lt n
         simp only [List.cons.sizeOf_spec] at h ⊢
         omega)

lemma applyContext_think_time (ctx : ParsingContext) (s : ExtractedSampler) :
    (applyContext ctx s).think_time =
      (if pendingApplies ctx s.think_time = true then ctx.pending_think_time
       else s.think_time) := by
  unfold applyContext
  cases htx : ctx.transaction_name with
  | none => cases hr : ctx.in_random_controller <;> simp [htx, hr] <;> split <;> rfl
  | some tx =>
    by_cases htxe : tx = "" <;>
      cases hr : ctx.in_random_controller <;> simp [htx, hr, htxe] <;> split <;> rfl

lemma applyContext_name (ctx : ParsingContext) (s : ExtractedSampler) :
    (applyContext ctx s).name =
      (match ctx.transaction_name with
       | some tx => if tx ≠ "" then tx ++ ": " ++ s.name else s.name
       | none => s.name) := by
  unfold applyContext
  cases htx : ctx.transaction_name with
  | none =>
    cases hr : ctx.in_random_controller <;> simp [htx, hr, pendingApplies] <;>
      split <;> simp
  | some tx =>
    by_cases htxe : tx = "" <;>
      cases hr : ctx.in_random_controller <;> simp [htx, hr, htxe, pendingApplies] <;>
        split <;> simp

lemma applyContext_random (ctx : ParsingContext) (s : ExtractedSampler) :
    (applyContext ctx s).random = (ctx.in_random_controller || s.random) := by
  unfold applyContext
  cases htx : ctx.transaction_name with
  | none =>
    cases hr : ctx.in_random_controller <;> simp [htx, hr, pendingApplies] <;>
      split <;> simp
  | some tx =>
    by_cases htxe : tx = "" <;>
      cases hr : ctx.in_random_controller <;> simp [htx, hr, htxe, pendingApplies] <;>
        split <;> simp

lemma walkSiblings_cons_sampler (jl : String → Option JsonVal)
    (gh : List (String × String)) (n : HNode) (rest : List HNode)
    (ctx : ParsingContext) (hs : n.elem.tag = "HTTPSamplerProxy")
    (he : is_enabled n.elem = true) :
    walkSiblings jl gh (n :: rest) ctx =
      (applyContext ctx (_extract_sampler_data jl gh n.elem (n.kids.map HNode.elem)).1 ::
         (walkSiblings jl gh rest ⟨ctx.in_random_controller, ctx.transaction_name, none⟩).1,
       (_extract_sampler_data jl gh n.elem (n.kids.map HNode.elem)).2 ++
         (walkSiblings jl gh rest ⟨ctx.in_random_controller, ctx.transaction_name, none⟩).2) := by
  rw [walkSiblings]
  simp [hs, he, SUPPORTED_SAMPLERS]

lemma walkSiblings_cons_txctrl (jl : String → Option JsonVal)
    (gh : List (String × String)) (n : HNode) (rest : List HNode)
    (ctx : ParsingContext) (hs : n.elem.tag = "TransactionController")
    (he : is_enabled n.elem = true) :
    walkSiblings jl gh (n :: rest) ctx =
      ((walkSiblings jl gh n.kids
          ⟨ctx.in_random_controller, some (get_attribute n.elem "testname" "Transaction"),
            ctx.pending_think_time⟩).1 ++
        (walkSiblings jl gh rest ctx).1,
       (walkSiblings jl gh n.kids
          ⟨ctx.in_random_controller, some (get_attribute n.elem "testname" "Transaction"),
            ctx.pending_think_time⟩).2 ++
        (walkSiblings jl gh rest ctx).2) := by
  rw [walkSiblings]
  simp [hs, he]

lemma walkSiblings_cons_testaction (jl : String → Option JsonVal)
    (gh : List (String × String)) (n : HNode) (rest : List HNode)
    (ctx : ParsingContext) (hs : n.elem.tag = "TestAction")
    (he : is_enabled n.elem = true)
    (ha : get_int_prop n.elem "TestAction.action" 0 = 1)
    (hd : get_int_prop n.elem "TestAction.duration" 0 > 0) :
    walkSiblings jl gh (n :: rest) ctx =
      ((walkSiblings jl gh n.kids
          ⟨ctx.in_random_controller, ctx.transaction_name,
            some (get_int_prop n.elem "TestAction.duration" 0)⟩).1 ++
        (walkSiblings jl gh rest
          ⟨ctx.in_random_controller, ctx.transaction_name,
            some (get_int_prop n.elem "TestAction.duration" 0)⟩).1,
       (walkSiblings jl gh n.kids
          ⟨ctx.in_random_controller, ctx.transaction_name,
            some (get_int_prop n.elem "TestAction.duration" 0)⟩).2 ++
        (walkSiblings jl gh rest
          ⟨ctx.in_random_controller, ctx.transaction_name,
            some (get_int_prop n.elem "TestAction.duration" 0)⟩).2) := by
  rw [walkSiblings]
  simp [hs, he, ha, hd]

/-- C2: a pause/test-action node with the PAUSE action code (1) and positive
duration installs that duration as `pending_think_time` in the context used
for its own children and for the remainder of the sibling scan; a matched
request node's record receives the pending duration as think-time exactly
when its own extracted think-time is unset (an own think-time always wins,
and no pending means the own value is kept); and after a matched request
node is appended, the remaining siblings are scanned with
`pending_think_time` cleared while the transaction name and random flag
persist. -/
theorem C2_pending_pause :
    (∀ (jl : String → Option JsonVal) (gh : List (String × String)) (n : HNode)
        (rest : List HNode) (ctx : ParsingContext),
      n.elem.tag = "TestAction" → is_enabled n.elem = true →
      get_int_prop n.elem "TestAction.action" 0 = 1 →
      get_int_prop n.elem "TestAction.duration" 0 > 0 →
      walkSiblings jl gh (n :: rest) ctx =
        ((walkSiblings jl gh n.kids
            ⟨ctx.in_random_controller, ctx.transaction_name,
              some (get_int_prop n.elem "TestAction.duration" 0)⟩).1 ++
          (walkSiblings jl gh rest
            ⟨ctx.in_random_controller, ctx.transaction_name,
              some (get_int_prop n.elem "TestAction.duration" 0)⟩).1,
         (walkSiblings jl gh n.kids
            ⟨ctx.in_random_controller, ctx.transaction_name,
              some (get_int_prop n.elem "TestAction.duration" 0)⟩).2 ++
          (walkSiblings jl gh rest
            ⟨ctx.in_random_controller, ctx.transaction_name,
              some (get_int_prop n.elem "TestAction.duration" 0)⟩).2))
    ∧ (∀ (jl : String → Option JsonVal) (gh : List (String × String)) (n : HNode)
        (rest : List HNode) (ctx : ParsingContext),
      n.elem.tag = "HTTPSamplerProxy" → is_enabled n.elem = true →
      ∃ r l, (walkSiblings jl gh (n :: rest) ctx).1 = r :: l
        ∧ (∀ d : Int, ctx.pending_think_time = some d → d ≠ 0 →
            (_extract_sampler_data jl gh n.elem (n.kids.map HNode.elem)).1.think_time = none →
            r.think_time = some d)
        ∧ (∀ t0 : Int,
            (_extract_sampler_data jl gh n.elem (n.kids.map HNode.elem)).1.think_time = some t0 →
            r.think_time = some t0)
        ∧ (ctx.pending_think_time = none →
            r.think_time =
              (_extract_sampler_data jl gh n.elem (n.kids.map HNode.elem)).1.think_time)
        ∧ l = (walkSiblings jl gh rest
            ⟨ctx.in_random_controller, ctx.transaction_name, none⟩).1) := by
  constructor
  · intro jl gh n rest ctx hs he ha hd
    exact walkSiblings_cons_testaction jl gh n rest ctx hs he ha hd
  · intro jl gh n rest ctx hs he
    rw [walkSiblings_cons_sampler jl gh n rest ctx hs he]
    refine ⟨_, _, rfl, ?_, ?_, ?_, rfl⟩
    · intro d hpd hdz htt
      rw [applyContext_think_time, if_pos, hpd]
      rw [pendingApplies, hpd, htt]
      simp [hdz]
    · intro t0 htt
      rw [applyContext_think_time, if_neg, htt]
      rw [pendingApplies, htt]
      cases ctx.pending_think_time <;> simp
    · intro hpd
      rw [applyContext_think_time, if_neg]
      rw [pendingApplies, hpd]
      simp

/-- Concrete instantiation of `C2_pending_pause`: under a context carrying a
pending pause of 2000 ms, a request node with no timer of its own yields a
record with think-time 2000, and the sibling scan continues with the
pending pause cleared. -/
theorem C2_witness :
    ∃ r l,
      (walkSiblings (fun _ => none) []
        [HNode.mk (Element.mk "HTTPSamplerProxy" [("testname", "Get User")] none []) []]
        ⟨false, none, some 2000⟩).1 = r :: l
      ∧ r.think_time = some 2000 ∧ l = [] := by
  obtain ⟨r, l, h1, h2, h3, h4, h5⟩ :=
    C2_pending_pause.2 (fun _ => none) []
      (HNode.mk (Element.mk "HTTPSamplerProxy" [("testname", "Get User")] none []) []) []
      ⟨false, none, some 2000⟩ (by decide) (by decide)
  refine ⟨r, l, h1, h2 2000 rfl (by decide) ?_, ?_⟩
  · simp [_extract_sampler_data, _extract_timers]
  · rw [h5, walkSiblings]

/-- C8: a matched request node walked under an enabled context yields a
record whose name is `"{transaction_name}: {original name}"` whenever the
active context carries a (non-empty) transaction name and whose random flag
equals the context's random-branch flag (the freshly extracted record's own
flag being false); since both facts hold of the same record, a context with
both a transaction name and the random flag applies both transformations
simultaneously.  A transaction-controller node recurses with the context's
transaction name set to its display name, defaulting to `"Transaction"`
when the `testname` attribute is absent. -/
theorem C8_context_transforms :
    (∀ (jl : String → Option JsonVal) (gh : List (String × String)) (n : HNode)
        (rest : List HNode) (ctx : ParsingContext),
      n.elem.tag = "HTTPSamplerProxy" → is_enabled n.elem = true →
      ∃ r l, (walkSiblings jl gh (n :: rest) ctx).1 = r :: l
        ∧ r.name =
            (match ctx.transaction_name with
             | some tx =>
               if tx ≠ "" then
                 tx ++ ": " ++
                   (_extract_sampler_data jl gh n.elem (n.kids.map HNode.elem)).1.name
               else (_extract_sampler_data jl gh n.elem (n.kids.map HNode.elem)).1.name
             | none => (_extract_sampler_data jl gh n.elem (n.kids.map HNode.elem)).1.name)
        ∧ r.random = ctx.in_random_controller)
    ∧ (∀ (jl : String → Option JsonVal) (gh : List (String × String)) (n : HNode)
        (rest : List HNode) (ctx : ParsingContext),
      n.elem.tag = "TransactionController" → is_enabled n.elem = true →
      walkSiblings jl gh (n :: rest) ctx =
        ((walkSiblings jl gh n.kids
            ⟨ctx.in_random_controller, some (get_attribute n.elem "testname" "Transaction"),
              ctx.pending_think_time⟩).1 ++
          (walkSiblings jl gh rest ctx).1,
         (walkSiblings jl gh n.kids
            ⟨ctx.in_random_controller, some (get_attribute n.elem "testname" "Transaction"),
              ctx.pending_think_time⟩).2 ++
          (walkSiblings jl gh rest ctx).2)) := by
  constructor
  · intro jl gh n rest ctx hs he
    rw [walkSiblings_cons_sampler jl gh n rest ctx hs he]
    refine ⟨_, _, rfl, ?_, ?_⟩
    · rw [applyContext_name]
    · rw [applyContext_random]
      have hrand : (_extract_sampler_data jl gh n.elem (n.kids.map HNode.elem)).1.random
          = false := by
        simp [_extract_sampler_data]
      rw [hrand]
      cases ctx.in_random_controller <;> simp
  · intro jl gh n rest ctx hs he
    exact walkSiblings_cons_txctrl jl gh n rest ctx hs he

/-- Concrete instantiation of `C8_context_transforms`: under a context that
is simultaneously inside a random branch and a transaction named
`"Login Flow"`, the request record gets both the prefixed name
`"Login Flow: Get User"` and `random = true`. -/
theorem C8_witness :
    ∃ r l,
      (walkSiblings (fun _ => none) []
        [HNode.mk (Element.mk "HTTPSamplerProxy" [("testname", "Get User")] none []) []]
        ⟨true, some "Login Flow", none⟩).1 = r :: l
      ∧ r.name = "Login Flow: Get User" ∧ r.random = true := by
  obtain ⟨r, l, h1, h2, h3⟩ :=
    C8_context_transforms.1 (fun _ => none) []
      (HNode.mk (Element.mk "HTTPSamplerProxy" [("testname", "Get User")] none []) []) []
      ⟨true, some "Login Flow", none⟩ (by decide) (by decide)
  refine ⟨r, l, h1, ?_, h3⟩
  rw [h2]
  simp [_extract_sampler_data, get_attribute, attrVal]
  try decide

/-! ### Whole-document extraction (`parse_samplers`) -/

/-- Preorder traversal of a hierarchy forest. -/
def hnodePreList : List HNode → List HNode
  | [] => []
  | n :: rest => n :: (hnodePreList n.kids ++ hnodePreList rest)
termination_by ns => sizeOf ns
decreasing_by
  · have h := HNode.sizeOf_kids_lt n
    simp only [List.cons.sizeOf_spec] at h ⊢
    omega
  · simp only [List.cons.sizeOf_spec]; omega

/-- The hierarchy forest of the document's main `hashTree`
(`_build_hash_tree_map`). -/
def mainForest (doc : Element) : List HNode :=
  match doc.children.find? (fun c => c.tag == "hashTree") with
  | some t => hforest t.children
  | none => []

/-- `JMXParser._extract_global_headers`: the `TestPlan`-level header
managers, children taken from the hierarchy lookup. -/
def _extract_global_headers (doc : Element) : List (String × String) :=
  match (hnodePreList (mainForest doc)).find? (fun n => n.elem.tag == "TestPlan") with
  | none => []
  | some tp => _extract_headers (tp.kids.map HNode.elem)

/-- `JMXParser._extract_samplers`: walk every `ThreadGroup` of the document
with a fresh all-default context, in document order. -/
def _extract_samplers (jsonLoads : String → Option JsonVal)
    (global_headers : List (String × String)) (doc : Element) :
    List ExtractedSampler × List String :=
  ((hnodePreList (mainForest doc)).filter (fun n => n.elem.tag == "ThreadGroup")).foldl
    (fun acc tg =>
      (acc.1 ++ (walkSiblings jsonLoads global_headers tg.kids ⟨false, none, none⟩).1,
       acc.2 ++ (walkSiblings jsonLoads global_headers tg.kids ⟨false, none, none⟩).2))
    ([], [])

/-- The per-instance mutable state of `JMXParser` observable across runs. -/
structure ParserState where
  warnings : List String
  errors : List String
deriving DecidableEq, Repr

/-- `JMXParser.parse_samplers` on an already-parsed document: lines 132–133
reset the instance's warning and error lists, then the hierarchy map, the
HTTP defaults and the global headers are recomputed from the document alone
before extraction.  `st` is whatever state a previous run left in the
instance.  (The recomputed HTTP defaults do not influence the sampler list;
the stale identity-keyed hierarchy entries of a previous run are unreachable
from the fresh document's objects and are therefore not modelled.) -/
def parse_samplers_run (jsonLoads : String → Option JsonVal) (doc : Element)
    (_st : ParserState) : List ExtractedSampler × ParserState :=
  let stReset : ParserState := ⟨[], []⟩
  let gh := _extract_global_headers doc
  let r := _extract_samplers jsonLoads gh doc
  (r.1, ⟨stReset.warnings ++ r.2, stReset.errors⟩)

/-- C9: sampler extraction is deterministic — running `parse_samplers` on
the same document from any two instance states (in particular from two
fresh parser instances) yields identical extracted-sampler lists and
identical warning state, because the run resets every piece of instance
state it reads and recomputes everything from the document. -/
theorem C9_deterministic (jsonLoads : String → Option JsonVal) (doc : Element)
    (st1 st2 : ParserState) :
    parse_samplers_run jsonLoads doc st1 = parse_samplers_run jsonLoads doc st2 := rfl

/-! ### Scenario assembler (`core/scenario_builder.py`) -/

/-- A capture rendered for output by `_format_captures`: the bare variable
name, the `{name: field}` map, the `{name: {path}}` form, or the
`{name: {path, match}}` form. -/
inductive CaptureOut where
  | nameOnly (v : String)
  | fieldMap (v field : String)
  | pathOnly (v path : String)
  | pathMatch (v path m : String)
deriving DecidableEq, Repr

/-- `ScenarioBuilder._format_captures`, one capture. -/
def formatCapture (c : CaptureConfig) : CaptureOut :=
  if c.matchSel = "first" ∧ c.jsonpath = "$." ++ c.variable_name then
    .nameOnly c.variable_name
  else if c.matchSel = "first" ∧ c.jsonpath.startsWith "$." then
    let field : String := ⟨c.jsonpath.data.drop 2⟩
    if field.data.all (fun ch => ch ≠ '.' ∧ ch ≠ '[') then .fieldMap c.variable_name field
    else .pathOnly c.variable_name c.jsonpath
  else if c.matchSel ≠ "first" then .pathMatch c.variable_name c.jsonpath c.matchSel
  else .pathOnly c.variable_name c.jsonpath

/-- The `assert` map rendered by `_format_assertions` (a field left at its
empty default stands for an omitted key). -/
structure AssertOut where
  status : Option Int
  body : List (String × String)
  body_contains : List String
  headers : List (String × String)
deriving DecidableEq, Repr

/-- `ScenarioBuilder._format_assertions`. -/
def _format_assertions : Option AssertConfig → Option AssertOut
  | none => none
  | some a =>
    if a.status.isSome ∨ a.body ≠ [] ∨ a.body_contains ≠ [] ∨ a.headers ≠ [] then
      some ⟨a.status, a.body, a.body_contains, a.headers⟩
    else none

/-- The `loop` map rendered by `_format_loop` (a `none` field stands for an
omitted key). -/
structure LoopOut where
  count : Option Int
  whileCond : Option String
  maxIter : Option Int
  interval : Option Int
  varName : Option String
deriving DecidableEq, Repr

/-- `ScenarioBuilder._format_loop`: `max` only when truthy and ≠ 100. -/
def _format_loop : Option LoopConfig → Option LoopOut
  | none => none
  | some l =>
    let maxEntry :=
      if l.max_iterations ≠ 0 ∧ l.max_iterations ≠ 100 then some l.max_iterations else none
    if l.count.isSome ∨ l.while_condition.isSome ∨ maxEntry.isSome ∨ l.interval.isSome
        ∨ l.varName.isSome then
      some ⟨l.count, l.while_condition, maxEntry, l.interval, l.varName⟩
    else none

/-- `ScenarioBuilder._format_files`: a falsy mime-type is omitted. -/
def _format_files (files : List FileConfig) : List FileConfig :=
  files.map (fun f =>
    ⟨f.path, f.param,
      match f.mime_type with
      | some m => if m ≠ "" then some m else none
      | none => none⟩)

/-- `ScenarioStep` from `core/data_types.py`. -/
structure ScenarioStep where
  name : String
  endpoint : Option String
  enabled : Bool
  headers : List (String × String)
  params : List (String × String)
  payload : Option Payload
  files : List FileConfig
  capture : List CaptureOut
  assert_config : Option AssertOut
  loop : Option LoopOut
  think_time : Option Int
  random : Bool

/-- `ScenarioBuilder._sampler_to_step`. -/
def _sampler_to_step (s : ExtractedSampler) (include_think_time : Bool) : ScenarioStep :=
  ⟨s.name,
   some (s.method ++ " " ++ s.path),
   s.enabled,
   s.headers.filter (fun kv => kv.2 != ""),
   s.params.filter (fun kv => kv.2 != ""),
   s.payload,
   _format_files s.files,
   s.captures.map formatCapture,
   _format_assertions s.assertions,
   _format_loop s.loop,
   if include_think_time then s.think_time else none,
   s.random⟩

/-- The step-list construction of `ScenarioBuilder.build`: one content step
per sampler (think-time withheld), followed by a separate `Think Time` step
when the sampler carries one. -/
def buildSteps : List ExtractedSampler → List ScenarioStep
  | [] => []
  | s :: rest =>
    _sampler_to_step s false ::
      (match s.think_time with
       | some t =>
         ⟨"Think Time", none, true, [], [], none, [], [], none, none, some t, false⟩ ::
           buildSteps rest
       | none => buildSteps rest)

/-- Did a step come out with an endpoint (a content step)? -/
def isContentStep (st : ScenarioStep) : Bool :=
  st.endpoint.isSome

/-- A step without an endpoint is a well-formed pause-only step: named
`Think Time`, carrying a think-time, and with every other field at its
default. -/
def pauseOnlyOk (st : ScenarioStep) : Bool :=
  st.endpoint.isSome ||
    (st.name == "Think Time" && st.think_time.isSome && st.enabled
      && st.headers.isEmpty && st.params.isEmpty && st.payload.isNone
      && st.files.isEmpty && st.capture.isEmpty && st.assert_config.isNone
      && st.loop.isNone && !st.random)

/-- C7: the assembler emits, per extracted record, exactly one content step
whose endpoint is `"{method} {path}"` and which never carries a think-time;
when and only when the record has a think-time, that content step is
immediately followed by a pause-only step (`endpoint = none`, name
`"Think Time"`, the think-time copied); and every step without an endpoint
has nothing populated besides its name and think-time. -/
theorem C7_assembler_steps (samplers : List ExtractedSampler) :
    ((buildSteps samplers).map (fun st => (st.endpoint, st.name, st.think_time)) =
      samplers.flatMap (fun s =>
        (some (s.method ++ " " ++ s.path), s.name, (none : Option Int)) ::
          (match s.think_time with
           | some t => [((none : Option String), "Think Time", some t)]
           | none => [])))
    ∧ ((buildSteps samplers).all pauseOnlyOk = true) := by
  induction samplers with
  | nil => exact ⟨rfl, rfl⟩
  | cons s rest ih =>
    constructor
    · cases htt : s.think_time with
      | none =>
        simp only [buildSteps, htt, List.map_cons, List.flatMap_cons, _sampler_to_step]
        exact congrArg _ ih.1
      | some t =>
        simp only [buildSteps, htt, List.map_cons, List.flatMap_cons, _sampler_to_step]
        exact congrArg _ (congrArg _ ih.1)
    · cases htt : s.think_time with
      | none => simp [buildSteps, htt, pauseOnlyOk, _sampler_to_step, ih.2]
      | some t => simp [buildSteps, htt, pauseOnlyOk, _sampler_to_step, ih.2]

end Jmx
